import Mathlib

/-!
Verification of the Atlanta Municipal Court scraper client
(`atlanta_court/client.py`, class `AtlantaMunicipalClient`).

The client parses HTML pages returned by the court portal with
BeautifulSoup.  We embed the parsed documents as a rose tree of nodes
(`Node`), and reproduce the BeautifulSoup operations the client uses:
`find` / `find_all` (first / all matching descendants in document
order), attribute lookup, `get_text(strip=True)`, and the `.string`
accessor of script tags.  A found tag is always truthy in the
client's Python (`Tag.__bool__` is constantly true, as exercised by
the repository's own tests), so `if tag:` is modelled as `isSome`.

Python dictionaries are embedded as insertion-ordered association
lists with overwrite-in-place assignment (`aset`), and the
heterogeneous record values of the scraper as the inductive `Value`
(strings, lists, and string-to-string mappings).
-/

namespace AtlantaCourt

/-- Substring search on character lists (Python's `pat in s`). -/
def listInfix (pat : List Char) : List Char → Bool
  | [] => pat.isEmpty
  | c :: rest => pat.isPrefixOf (c :: rest) || listInfix pat rest

/-- Python's `pat in s` on strings. -/
def strContainsSub (s pat : String) : Bool :=
  listInfix pat.toList s.toList

/-- Python's `s.startswith(pat)`. -/
def pyStartsWith (s pat : String) : Bool :=
  pat.toList.isPrefixOf s.toList

/-- The whitespace characters Python's `str.strip()` removes (ASCII
whitespace and the non-breaking space). -/
def pySpaceChars : List Char :=
  [' ', Char.ofNat 9, Char.ofNat 10, Char.ofNat 13, Char.ofNat 11,
    Char.ofNat 12, Char.ofNat 160]

/-- Python's `s.strip()`. -/
def pyStrip (s : String) : String :=
  String.mk (((s.data.dropWhile (fun c => pySpaceChars.contains c)).reverse.dropWhile
    (fun c => pySpaceChars.contains c)).reverse)

/-- Python's `s.lower()` (ASCII). -/
def pyLower (s : String) : String :=
  String.mk (s.data.map Char.toLower)

/-- Left-to-right non-overlapping replacement on character lists,
structurally recursive on a fuel bound. -/
def replaceFuel (pat rep : List Char) : Nat → List Char → List Char
  | 0, cs => cs
  | _ + 1, [] => []
  | fuel + 1, c :: rest =>
      if pat.isPrefixOf (c :: rest) then
        rep ++ replaceFuel pat rep fuel ((c :: rest).drop pat.length)
      else c :: replaceFuel pat rep fuel rest

/-- Python's `s.replace(pat, rep)` (for non-empty `pat`). -/
def pyReplace (s pat rep : String) : String :=
  String.mk (replaceFuel pat.data rep.data (s.data.length + 1) s.data)

/-- Left-to-right splitting on a separator, structurally recursive
on a fuel bound. -/
def splitFuel (sep : List Char) : Nat → List Char → List Char → List (List Char)
  | 0, cs, acc => [acc.reverse ++ cs]
  | _ + 1, [], acc => [acc.reverse]
  | fuel + 1, c :: rest, acc =>
      if sep.isPrefixOf (c :: rest) then
        acc.reverse :: splitFuel sep fuel ((c :: rest).drop sep.length) []
      else splitFuel sep fuel rest (c :: acc)

/-- Python's `s.split(sep)` (for non-empty `sep`). -/
def pySplitOn (s sep : String) : List String :=
  (splitFuel sep.data (s.data.length + 1) s.data []).map String.mk

/-- Python's `sep.join(xs)`. -/
def pyJoin (sep : String) (xs : List String) : String :=
  String.mk (List.intercalate sep.data (xs.map String.data))

/-- A parsed HTML node: either a text node or an element with a tag
name, attributes and children. -/
inductive Node where
  | text (s : String)
  | elem (tag : String) (attrs : List (String × String)) (children : List Node)

/-- A parsed document: the top-level nodes of the soup. -/
abbrev Doc := List Node

/-- Attribute lookup on an element (`tag.get(name)`); `none` on text
nodes and missing attributes. -/
def Node.attrOf (n : Node) (name : String) : Option String :=
  match n with
  | .text _ => none
  | .elem _ attrs _ => (attrs.find? (fun p => p.1 == name)).map (·.2)

/-- Whether the node is an element with the given tag name. -/
def Node.isTag (n : Node) (t : String) : Bool :=
  match n with
  | .elem tag _ _ => tag == t
  | .text _ => false

/-- BeautifulSoup class matching (`class_=c`): the `class` attribute,
split on spaces, contains `c`. -/
def Node.hasClass (n : Node) (c : String) : Bool :=
  match n.attrOf "class" with
  | some s => (pySplitOn s " ").contains c
  | none => false

mutual

/-- All nodes of the subtree rooted at `n`, in document (preorder)
order, including `n` itself. -/
def Node.subnodes : Node → List Node
  | .text s => [.text s]
  | .elem t a cs => .elem t a cs :: subnodesList cs

/-- All nodes of the subtrees rooted at the given nodes, in document
order. -/
def subnodesList : List Node → List Node
  | [] => []
  | n :: ns => n.subnodes ++ subnodesList ns

end

mutual

/-- The text fragments of the subtree rooted at `n`, in document
order (the strings BeautifulSoup concatenates for `get_text`). -/
def Node.texts : Node → List String
  | .text s => [s]
  | .elem _ _ cs => textsList cs

/-- The text fragments of the given subtrees, in document order. -/
def textsList : List Node → List String
  | [] => []
  | n :: ns => n.texts ++ textsList ns

end

/-- BeautifulSoup `tag.get_text(strip=True)`: each text fragment stripped, then
concatenated. -/
def Node.getTextStrip (n : Node) : String :=
  pyJoin "" (n.texts.map pyStrip)

/-- BeautifulSoup `soup.find_all(...)` on a document: all matching descendants in
document order. -/
def findAllDoc (p : Node → Bool) (doc : Doc) : List Node :=
  (subnodesList doc).filter p

/-- BeautifulSoup `soup.find(...)` on a document: the first matching descendant. -/
def findDoc (p : Node → Bool) (doc : Doc) : Option Node :=
  (subnodesList doc).find? p

/-- BeautifulSoup `tag.find_all(...)`: all matching strict descendants of `n`. -/
def Node.findAllIn (n : Node) (p : Node → Bool) : List Node :=
  match n with
  | .text _ => []
  | .elem _ _ cs => findAllDoc p cs

/-- BeautifulSoup `tag.find(...)`: the first matching strict descendant of `n`. -/
def Node.findIn (n : Node) (p : Node → Bool) : Option Node :=
  match n with
  | .text _ => none
  | .elem _ _ cs => findDoc p cs

/-- The `.string` accessor: the single string below the node, if the
node has exactly one child all the way down to a text node. -/
def Node.stringOf : Node → Option String
  | .text s => some s
  | .elem _ _ [c] => c.stringOf
  | .elem _ _ _ => none

/-- A record entry inside one of the scraper's list-valued fields:
either a plain string (base-page charges) or a string-to-string
mapping (parties, summary charges, docket entries). -/
inductive Entry where
  | str (s : String)
  | map (m : List (String × String))
deriving Repr, DecidableEq

/-- Is the entry a mapping? -/
def Entry.isMap : Entry → Bool
  | .map _ => true
  | .str _ => false

/-- A value stored in the scraper's case-data dictionary. -/
inductive Value where
  | str (s : String)
  | list (xs : List Entry)
deriving Repr, DecidableEq

/-- Python `d.get(k)` on an insertion-ordered association list: the first
binding of `k`. -/
def aget {α : Type} : List (String × α) → String → Option α
  | [], _ => none
  | p :: rest, k => if p.1 == k then some p.2 else aget rest k

/-- Assignment `d[k] = v` on a Python dict: overwrite the first binding of `k`
in place when present, else append.  The scraper builds every
dictionary through this operation, so keys are never duplicated and
this is exactly Python's insertion-ordered assignment. -/
def aset {α : Type} : List (String × α) → String → α → List (String × α)
  | [], k, v => [(k, v)]
  | p :: rest, k, v =>
      if p.1 == k then (k, v) :: rest else p :: aset rest k v

/-- Python `d.update(e)` on Python dicts: assign every binding of `e` into
`d`, in `e`'s order. -/
def aupdate {α : Type} (d e : List (String × α)) : List (String × α) :=
  e.foldl (fun acc p => aset acc p.1 p.2) d

/-- The scraper's case-data dictionary. -/
abbrev Dict := List (String × Value)

/-- Python label.rstrip of colons: drop every trailing colon. -/
def rstripColons (s : String) : String :=
  String.mk ((s.toList.reverse.dropWhile (fun c => c == ':')).reverse)

/-- Python label.lower with spaces replaced by underscores: the
snake_case key of a label. -/
def snakeKey (s : String) : String :=
  pyReplace (pyLower s) " " "_"

/-- The single-quote character (ASCII 39). -/
def quoteChar : Char := Char.ofNat 39

/-- The non-breaking-space string (U+00A0). -/
def nbspStr : String := String.mk [Char.ofNat 160]

/-- Python re.search for the literal `pat` followed by a non-empty
run of non-quote characters and a closing single quote, scanning
positions left to right; captures the run.  Used for the
var-caseNumber and var-caseDigest script assignments, whose literal
part ends with the opening quote. -/
def findQuotedCapture (pat : List Char) : List Char → Option String
  | [] => none
  | c :: rest =>
      if pat.isPrefixOf (c :: rest) then
        let after := (c :: rest).drop pat.length
        let cap := after.takeWhile (fun ch => ch != quoteChar)
        if !cap.isEmpty && cap.length < after.length then some (String.mk cap)
        else findQuotedCapture pat rest
      else findQuotedCapture pat rest

/-- Python re.search for the literal `pat` followed by a non-empty
digit run, scanning positions left to right; captures the digits.
Used for the var-cid assignment pattern. -/
def findDigitsCapture (pat : List Char) : List Char → Option String
  | [] => none
  | c :: rest =>
      if pat.isPrefixOf (c :: rest) then
        let after := (c :: rest).drop pat.length
        let cap := after.takeWhile Char.isDigit
        if !cap.isEmpty then some (String.mk cap)
        else findDigitsCapture pat rest
      else findDigitsCapture pat rest

/-- Python re.search of an uppercase run, anything but a newline,
then a digit run (no DOTALL): there is an ASCII
uppercase letter and, later in the same line-suffix (no intervening
newline), a digit. -/
def looksLikeCaseNumber : List Char → Bool
  | [] => false
  | c :: rest =>
      (c.isUpper && (rest.takeWhile (fun ch => ch != Char.ofNat 10)).any (·.isDigit))
        || looksLikeCaseNumber rest

/-! ## `parse_case_details` (client.py lines 217-370) -/

/-- Python string truthiness of the running `case_number` variable:
falsy when unset or the empty string. -/
def pyFalsyStr : Option String → Bool
  | none => true
  | some s => s.isEmpty

/-- The literal part of the var-caseNumber assignment pattern, up to
and including the opening quote. -/
def caseNumberPat : List Char := "var caseNumber = ".toList ++ [quoteChar]

/-- Method 1 of case-number recovery in isolation: the page title's
part before the first `-`, stripped, accepted when it has an
uppercase letter later followed by a digit. -/
def tierTitle (doc : Doc) : Option String :=
  match findDoc (fun n => n.isTag "title") doc with
  | none => none
  | some title_tag =>
      let title_text := title_tag.getTextStrip
      let potential_case := pyStrip ((pySplitOn title_text "-").headD "")
      if looksLikeCaseNumber potential_case.toList then some potential_case else none

/-- Method 2 of case-number recovery in isolation: the text of the
first `h2.case-heading`, succeeding only when non-empty. -/
def tierHeading (doc : Doc) : Option String :=
  match findDoc (fun n => n.isTag "h2" && n.hasClass "case-heading") doc with
  | none => none
  | some h =>
      let s := h.getTextStrip
      if s.isEmpty then none else some s

/-- Method 3 of case-number recovery: scan the script tags in order
for a var-caseNumber assignment; first hit wins. -/
def tierScript : List Node → Option String
  | [] => none
  | s :: rest =>
      match s.stringOf with
      | some code =>
          if code.isEmpty then tierScript rest
          else
            match findQuotedCapture caseNumberPat code.toList with
            | some v => some v
            | none => tierScript rest
      | none => tierScript rest

/-- The imperative case-number recovery of `parse_case_details`
(lines 230-261): a `case_number` variable threaded through the three
methods, each later method guarded by the variable still being
falsy. -/
def caseNumberOf (doc : Doc) : Option String :=
  let cn0 : Option String := none
  let cn1 : Option String :=
    match findDoc (fun n => n.isTag "title") doc with
    | some title_tag =>
        let title_text := title_tag.getTextStrip
        let potential_case := pyStrip ((pySplitOn title_text "-").headD "")
        if looksLikeCaseNumber potential_case.toList then some potential_case else cn0
    | none => cn0
  let cn2 : Option String :=
    if pyFalsyStr cn1 then
      match findDoc (fun n => n.isTag "h2" && n.hasClass "case-heading") doc with
      | some h => some h.getTextStrip
      | none => cn1
    else cn1
  if pyFalsyStr cn2 then
    match tierScript (findAllDoc (fun n => n.isTag "script") doc) with
    | some v => some v
    | none => cn2
  else cn2

/-- The control skeleton of the imperative recovery, abstracted over
the tier results: `cn1` is method 1's outcome, `hres` the found
case-heading element, `sres` method 3's outcome.  Mirrors the
`if not case_number` guards of lines 248-261. -/
def imperChain (cn1 : Option String) (hres : Option Node) (sres : Option String) :
    Option String :=
  let cn2 :=
    if pyFalsyStr cn1 then
      match hres with
      | some h => some h.getTextStrip
      | none => cn1
    else cn1
  if pyFalsyStr cn2 then
    match sres with
    | some v => some v
    | none => cn2
  else cn2

/-- The guarded assignment of the case_number key (line 263-264):
the case number the record actually carries; a falsy value is
dropped. -/
def caseNumberCarried (doc : Doc) : Option String :=
  match caseNumberOf doc with
  | some v => if v.isEmpty then none else some v
  | none => none

/-- One row of a generic detail table (lines 275-283): at least two
cells, a non-empty label and value, yielding a snake_case binding. -/
def detailRowKV (row : Node) : Option (String × String) :=
  match row.findAllIn (fun n => n.isTag "th" || n.isTag "td") with
  | c0 :: c1 :: _ =>
      let label := rstripColons c0.getTextStrip
      let value := c1.getTextStrip
      if !label.isEmpty && !value.isEmpty then some (snakeKey label, value) else none
  | _ => none

/-- The generic detail tables: every `table.table` except the docket
table (lines 267-272). -/
def detailTables (doc : Doc) : List Node :=
  (findAllDoc (fun n => n.isTag "table" && n.hasClass "table") doc).filter
    (fun t => !(t.attrOf "id" == some "gridDockets"))

/-- The (key, value) bindings the generic detail tables produce, in
execution order (lines 269-283). -/
def detailPairs (doc : Doc) : List (String × String) :=
  (detailTables doc).foldl (fun acc t =>
    (t.findAllIn (fun n => n.isTag "tr")).foldl (fun acc2 row =>
      match detailRowKV row with
      | some kv => acc2 ++ [kv]
      | none => acc2) acc) []

/-- The parties section: `div#parties` or else `section.parties`
(line 286). -/
def partiesSectionOf (doc : Doc) : Option Node :=
  (findDoc (fun n => n.isTag "div" && n.attrOf "id" == some "parties") doc).orElse
    (fun _ => findDoc (fun n => n.isTag "section" && n.hasClass "parties") doc)

/-- The party entries of the base page's parties section
(lines 288-296). -/
def basePartiesRows (sec : Node) : List Entry :=
  (sec.findAllIn (fun n => n.isTag "tr")).foldl (fun acc row =>
    match row.findAllIn (fun n => n.isTag "td") with
    | c0 :: c1 :: _ =>
        acc ++ [Entry.map [("name", c0.getTextStrip), ("type", c1.getTextStrip)]]
    | _ => acc) []

/-- The base page's `parties` field: present only when the section
exists and produced at least one party (lines 286-298). -/
def basePartiesOf (doc : Doc) : Option (List Entry) :=
  match partiesSectionOf doc with
  | none => none
  | some sec =>
      let parties := basePartiesRows sec
      if parties.isEmpty then none else some parties

/-- The charges section: `div#charges` or else `section.charges`
(line 301). -/
def chargesSectionOf (doc : Doc) : Option Node :=
  (findDoc (fun n => n.isTag "div" && n.attrOf "id" == some "charges") doc).orElse
    (fun _ => findDoc (fun n => n.isTag "section" && n.hasClass "charges") doc)

/-- The charge entries of the base page's charges section: each row's
cell texts joined with single spaces, kept when non-empty
(lines 303-310). -/
def baseChargesRows (sec : Node) : List Entry :=
  (sec.findAllIn (fun n => n.isTag "tr")).foldl (fun acc row =>
    let cells := row.findAllIn (fun n => n.isTag "td")
    if cells.isEmpty then acc
    else
      let charge_text := pyJoin " " (cells.map Node.getTextStrip)
      if charge_text.isEmpty then acc else acc ++ [Entry.str charge_text]) []

/-- The base page's `charges` field (lines 301-312). -/
def baseChargesOf (doc : Doc) : Option (List Entry) :=
  match chargesSectionOf doc with
  | none => none
  | some sec =>
      let charges := baseChargesRows sec
      if charges.isEmpty then none else some charges

/-- Docket id recovery from the image's `id` attribute, with every
`img_` occurrence removed (lines 347-350). -/
def detailsDocketIdAttr (img : Node) : String :=
  match img.attrOf "id" with
  | some idv => if idv.isEmpty then "" else pyReplace idv "img_" ""
  | none => ""

/-- Docket id recovery from the first cell's image: the multi-valued
`rel` attribute's first word, falling back to the `id` attribute
(lines 334-350). -/
def detailsDocketRowId (first_cell : Node) : String :=
  match first_cell.findIn (fun n => n.isTag "img") with
  | none => ""
  | some img =>
      match img.attrOf "rel" with
      | some rs =>
          match (pySplitOn rs " ").filter (fun x => !x.isEmpty) with
          | r :: _ => r
          | [] => detailsDocketIdAttr img
      | none => detailsDocketIdAttr img

/-- The docket table's snake_case header keys (lines 320-325). -/
def detailsDocketHeaders (docket_table : Node) : List String :=
  match docket_table.findIn (fun n => n.isTag "thead") with
  | none => []
  | some header_row =>
      (header_row.findAllIn (fun n => n.isTag "th")).map
        (fun c => snakeKey c.getTextStrip)

/-- One docket entry from a body row (lines 331-365): zip headers
against cells positionally when the counts agree, else synthetic
`column_N` keys; the empty header key is replaced by `id`. -/
def detailsDocketEntryOfRow (headers : List String) (cells : List Node)
    (docket_id : String) : Entry :=
  if !headers.isEmpty && headers.length == cells.length then
    let e0 := (headers.zip (cells.map Node.getTextStrip)).foldl
                (fun acc p => aset acc p.1 p.2) []
    let e1 := if e0.any (fun p => p.1 == "") then e0.filter (fun p => p.1 != "") else e0
    Entry.map (aset e1 "id" docket_id)
  else
    Entry.map (aset ((cells.map Node.getTextStrip).enum.map
      (fun p => ("column_" ++ toString p.1, p.2))) "id" docket_id)

/-- The ordered docket entries the docket-parsing portion of
`parse_case_details` produces (lines 314-365); empty when the docket
table is absent. -/
def detailsDocketEntries (doc : Doc) : List Entry :=
  match findDoc (fun n => n.isTag "table" && n.attrOf "id" == some "gridDockets") doc with
  | none => []
  | some docket_table =>
      let headers := detailsDocketHeaders docket_table
      match docket_table.findIn (fun n => n.isTag "tbody") with
      | none => []
      | some tbody =>
          (tbody.findAllIn (fun n => n.isTag "tr")).foldl (fun acc row =>
            match row.findAllIn (fun n => n.isTag "td") with
            | [] => acc
            | c0 :: cs =>
                acc ++ [detailsDocketEntryOfRow headers (c0 :: cs)
                          (detailsDocketRowId c0)]) []

/-- The case data after the case-number step (lines 229-264). -/
def parseCaseNumberDict (doc : Doc) : Dict :=
  match caseNumberCarried doc with
  | some v => aset [] "case_number" (Value.str v)
  | none => []

/-- The case data after the generic detail tables (lines 266-283). -/
def parseDetailDict (doc : Doc) : Dict :=
  (detailPairs doc).foldl (fun acc p => aset acc p.1 (Value.str p.2))
    (parseCaseNumberDict doc)

/-- The case data after the parties section (lines 285-298). -/
def parsePartiesDict (doc : Doc) : Dict :=
  match basePartiesOf doc with
  | some ps => aset (parseDetailDict doc) "parties" (Value.list ps)
  | none => parseDetailDict doc

/-- The case data after the charges section (lines 300-312). -/
def parseChargesDict (doc : Doc) : Dict :=
  match baseChargesOf doc with
  | some cs => aset (parsePartiesDict doc) "charges" (Value.list cs)
  | none => parsePartiesDict doc

/-- The full `parse_case_details` (lines 217-370), assembling the
case-data dictionary in the source's execution order; the
`docket_history` key is added only when the docket table produced at
least one entry (line 367). -/
def parse_case_details (doc : Doc) : Dict :=
  let entries := detailsDocketEntries doc
  if entries.isEmpty then parseChargesDict doc
  else aset (parseChargesDict doc) "docket_history" (Value.list entries)

/-! ## `search` and `_get_search_page` (client.py lines 51-215) -/

/-- The three response types `search` distinguishes
(lines 186-215). -/
inductive SearchClassification where
  | search_results
  | case_details
  | unknown (message : String)
deriving Repr, DecidableEq

/-- A `table` element with id `gridSearchResults` (line 180). -/
def isResultsTable (n : Node) : Bool :=
  n.isTag "table" && n.attrOf "id" == some "gridSearchResults"

/-- The classification of a search-submission response
(lines 176-215): a found results table wins, otherwise the final URL
is examined, otherwise a fixed diagnostic. -/
def classify_search_response (body : Doc) (url : String) : SearchClassification :=
  let results_table := findDoc isResultsTable body
  let is_case_details := strContainsSub url "/CourtCase.aspx/Details/"
  if results_table.isSome then .search_results
  else if is_case_details then .case_details
  else .unknown "No results found or search failed"

/-- The arguments of `search` that shape the form body
(lines 84-95); `kwargs` is the trailing extension mapping. -/
structure SearchArgs where
  search_term : String
  search_type : String := "Name"
  court_types : Option (List String) := none
  party_types : Option (List String) := none
  divisions : Option (List String) := none
  opened_from : Option String := none
  opened_to : Option String := none
  closed_from : Option String := none
  closed_to : Option String := none
  kwargs : List (String × String) := []

/-- The fixed-shape form body `search` builds before the `kwargs`
merge (lines 119-154): documented defaults for the three unset
identifier lists, comma-joined; the fixed key set with empty strings
for unset filters. -/
def base_form_data (csrf_token : String) (a : SearchArgs) : List (String × String) :=
  let court_types :=
    match a.court_types with
    | none => ["22", "2", "20", "21", "7", "10"]
    | some l => l
  let party_types :=
    match a.party_types with
    | none => ["1", "2", "3", "4", "5"]
    | some l => l
  let divisions :=
    match a.divisions with
    | none => ["1"]
    | some l => l
  let form_data : List (String × String) := [
    ("__RequestVerificationToken", csrf_token),
    ("type", a.search_type),
    ("search", a.search_term),
    ("openedFrom", a.opened_from.getD ""),
    ("openedTo", a.opened_to.getD ""),
    ("closedFrom", a.closed_from.getD ""),
    ("closedTo", a.closed_to.getD ""),
    ("courtTypes", pyJoin "," court_types),
    ("caseTypes", ""),
    ("partyTypes", pyJoin "," party_types),
    ("divisions", pyJoin "," divisions),
    ("statutes", ""),
    ("partyBirthYear", ""),
    ("partyDOB", ""),
    ("caseStatus", ""),
    ("propertyAddress", ""),
    ("propertyCity", ""),
    ("propertyZip", ""),
    ("propertySubDivision", ""),
    ("lawFirm", ""),
    ("unpaidPrincipleBalanceFrom", ""),
    ("unpaidPrincipleBalanceTo", ""),
    ("electionDemandFrom", ""),
    ("electionDemandTo", ""),
    ("attorneyFileNumber", "")
  ]
  form_data

/-- The form body `search` submits (lines 119-157): the fixed-shape
body with `kwargs` merged last, able to override any generated key
(line 157). -/
def build_form_data (csrf_token : String) (a : SearchArgs) : List (String × String) :=
  a.kwargs.foldl (fun acc p => aset acc p.1 p.2) (base_form_data csrf_token a)

/-- The two token-bootstrap failures of `_get_search_page`
(lines 69 and 76), raised as `ValueError`s in the source. -/
inductive CsrfError where
  | MissingCsrfCookie
  | MissingCsrfToken
deriving Repr, DecidableEq

/-- The anti-forgery cookie's name pattern (line 64). -/
def csrfCookiePattern : String := "__RequestVerificationToken_"

/-- The anti-forgery form field the bootstrap looks for (line 73):
the first `input` named `__RequestVerificationToken`. -/
def csrfInputOf (doc : Doc) : Option Node :=
  findDoc (fun n =>
    n.isTag "input" && n.attrOf "name" == some "__RequestVerificationToken") doc

/-- The bootstrap `_get_search_page` (lines 51-82) on the landing response's
cookie jar and parsed body: scan the cookies for the anti-forgery
name (keeping any previously stored name when none matches), then
read the hidden form field's value; on success return the stored
(cookie name, token) pair. -/
def get_search_page (prior_cookie_name : Option String)
    (cookies : List (String × String)) (doc : Doc) :
    Except CsrfError (String × String) :=
  let csrf_cookie_name : Option String :=
    match cookies.find? (fun c => pyStartsWith c.1 csrfCookiePattern) with
    | some c => some c.1
    | none => prior_cookie_name
  match csrf_cookie_name with
  | none => .error .MissingCsrfCookie
  | some nm =>
      if nm.isEmpty then .error .MissingCsrfCookie
      else
        match csrfInputOf doc with
        | none => .error .MissingCsrfToken
        | some csrf_input =>
            match csrf_input.attrOf "value" with
            | none => .error .MissingCsrfToken
            | some v => if v.isEmpty then .error .MissingCsrfToken else .ok (nm, v)

/-- The client's cached anti-forgery state (lines 47-49). -/
structure ClientState where
  csrf_token_body : Option String
  csrf_cookie_name : Option String
deriving Repr, DecidableEq

/-- The bootstrap guard at the top of `search` (lines 115-117):
`_get_search_page` runs only when no token is cached.  Returns the
resulting state and the number of landing-page GETs issued. -/
def ensure_session (s : ClientState) (cookies : List (String × String))
    (landing : Doc) : Except CsrfError (ClientState × Nat) :=
  if pyFalsyStr s.csrf_token_body then
    match get_search_page s.csrf_cookie_name cookies landing with
    | .ok (nm, tok) =>
        .ok ({ csrf_token_body := some tok, csrf_cookie_name := some nm }, 1)
    | .error e => .error e
  else .ok (s, 0)

/-! ## `get_case_summary` (client.py lines 482-623) -/

/-- The (dt, dd) element pairs the summary parser consumes for one
definition list (lines 534-540): all dt descendants zipped
positionally against all dd descendants. -/
def summaryDlPairs (dl : Node) : List (Node × Node) :=
  (dl.findAllIn (fun n => n.isTag "dt")).zip (dl.findAllIn (fun n => n.isTag "dd"))

/-- The definition-list bindings of the summary fragment
(lines 531-548), folded over every `dl.dl-horizontal` in document
order, skipping blank and non-breaking-space values. -/
def summaryDlFold (doc : Doc) (d : Dict) : Dict :=
  (findAllDoc (fun n => n.isTag "dl" && n.hasClass "dl-horizontal") doc).foldl
    (fun acc dl =>
      (summaryDlPairs dl).foldl (fun acc2 p =>
        let label := rstripColons p.1.getTextStrip
        let value := p.2.getTextStrip
        if !label.isEmpty && !value.isEmpty && value != nbspStr && value != "&#160;" then
          aset acc2 (snakeKey label) (Value.str value)
        else acc2) acc) d

/-- One party row of the summary's `gridParties` table
(lines 556-574): type from the first cell, name from the second
cell's anchor when present, attorney from an optional third cell. -/
def summaryPartyRow (row : Node) : Option Entry :=
  match row.findAllIn (fun n => n.isTag "td") with
  | c0 :: c1 :: rest =>
      let party_type := c0.getTextStrip
      let name :=
        match c1.findIn (fun n => n.isTag "a") with
        | some name_link => name_link.getTextStrip
        | none => c1.getTextStrip
      let attorney : Option String :=
        match rest with
        | c2 :: _ => some c2.getTextStrip
        | [] => none
      let base := [("type", party_type), ("name", name)]
      match attorney with
      | some att => if att.isEmpty then some (Entry.map base)
                    else some (Entry.map (base ++ [("attorney", att)]))
      | none => some (Entry.map base)
  | _ => none

/-- The summary's `parties` field (lines 550-577): rows of the
`gridParties` body, present only when at least one row qualifies. -/
def summaryPartiesOf (doc : Doc) : Option (List Entry) :=
  match findDoc (fun n => n.isTag "table" && n.attrOf "id" == some "gridParties") doc with
  | none => none
  | some parties_table =>
      let parties :=
        match parties_table.findIn (fun n => n.isTag "tbody") with
        | none => []
        | some tbody =>
            (tbody.findAllIn (fun n => n.isTag "tr")).foldl (fun acc row =>
              match summaryPartyRow row with
              | some e => acc ++ [e]
              | none => acc) []
      if parties.isEmpty then none else some parties

/-- One charge row of the summary's `gridCharges` table
(lines 593-612): header keys when the counts agree, else `field_N`
keys, skipping blank and non-breaking-space cell texts. -/
def summaryChargeRow (headers : List String) (cells : List Node) : Option Entry :=
  let texts := cells.map Node.getTextStrip
  let keep := fun (t : String) => !t.isEmpty && t != nbspStr && t != "&#160;"
  let charge :=
    if !headers.isEmpty && headers.length == cells.length then
      (headers.zip texts).foldl (fun acc p =>
        if keep p.2 then aset acc p.1 p.2 else acc) []
    else
      texts.enum.foldl (fun acc p =>
        if keep p.2 then aset acc ("field_" ++ toString p.1) p.2 else acc) []
  if charge.isEmpty then none else some (Entry.map charge)

/-- The summary's `charges` field (lines 579-615): rows of the
`gridCharges` body, present only when at least one non-empty charge
mapping is produced. -/
def summaryChargesOf (doc : Doc) : Option (List Entry) :=
  match findDoc (fun n => n.isTag "table" && n.attrOf "id" == some "gridCharges") doc with
  | none => none
  | some charges_table =>
      let headers :=
        match charges_table.findIn (fun n => n.isTag "thead") with
        | none => []
        | some header_row =>
            (header_row.findAllIn (fun n => n.isTag "th")).map
              (fun c => snakeKey c.getTextStrip)
      let charges :=
        match charges_table.findIn (fun n => n.isTag "tbody") with
        | none => []
        | some tbody =>
            (tbody.findAllIn (fun n => n.isTag "tr")).foldl (fun acc row =>
              match row.findAllIn (fun n => n.isTag "td") with
              | [] => acc
              | c0 :: cs =>
                  match summaryChargeRow headers (c0 :: cs) with
                  | some e => acc ++ [e]
                  | none => acc) []
      if charges.isEmpty then none else some charges

/-- The parsed summary data of `get_case_summary` (lines 526-617):
definition-list bindings, then parties, then charges. -/
def summaryData (doc : Doc) : Dict :=
  let d1 := summaryDlFold doc []
  let d2 :=
    match summaryPartiesOf doc with
    | some ps => aset d1 "parties" (Value.list ps)
    | none => d1
  match summaryChargesOf doc with
  | some cs => aset d2 "charges" (Value.list cs)
  | none => d2

/-- The record `get_case_summary` returns (lines 619-623): the
success flag is constantly true once the transport call has
succeeded. -/
structure SummaryResult where
  success : Bool
  summary_data : Dict
deriving Repr, DecidableEq

/-- The parse of `get_case_summary` on its fragment response. -/
def get_case_summary (doc : Doc) : SummaryResult :=
  { success := true, summary_data := summaryData doc }

/-! ## `get_case_dockets` (client.py lines 625-736) -/

/-- Docket id recovery from the image's `id` attribute in
`get_case_dockets` (lines 710-713). -/
def fragmentDocketIdAttr (img : Node) : String :=
  match img.attrOf "id" with
  | some idv => if idv.isEmpty then "" else pyReplace idv "img_" ""
  | none => ""

/-- Docket id recovery from the first cell's image in
`get_case_dockets` (lines 697-713). -/
def fragmentDocketRowId (first_cell : Node) : String :=
  match first_cell.findIn (fun n => n.isTag "img") with
  | none => ""
  | some img =>
      match img.attrOf "rel" with
      | some rs =>
          match (pySplitOn rs " ").filter (fun x => !x.isEmpty) with
          | r :: _ => r
          | [] => fragmentDocketIdAttr img
      | none => fragmentDocketIdAttr img

/-- The docket fragment's snake_case header keys (lines 683-688). -/
def fragmentDocketHeaders (docket_table : Node) : List String :=
  match docket_table.findIn (fun n => n.isTag "thead") with
  | none => []
  | some header_row =>
      (header_row.findAllIn (fun n => n.isTag "th")).map
        (fun c => snakeKey c.getTextStrip)

/-- One docket entry from a fragment body row (lines 694-728). -/
def fragmentDocketEntryOfRow (headers : List String) (cells : List Node)
    (docket_id : String) : Entry :=
  if !headers.isEmpty && headers.length == cells.length then
    let e0 := (headers.zip (cells.map Node.getTextStrip)).foldl
                (fun acc p => aset acc p.1 p.2) []
    let e1 := if e0.any (fun p => p.1 == "") then e0.filter (fun p => p.1 != "") else e0
    Entry.map (aset e1 "id" docket_id)
  else
    Entry.map (aset ((cells.map Node.getTextStrip).enum.map
      (fun p => ("column_" ++ toString p.1, p.2))) "id" docket_id)

/-- The ordered docket entries `get_case_dockets` produces from its
fragment response (lines 672-728); empty when the docket table is
absent. -/
def fragmentDocketEntries (doc : Doc) : List Entry :=
  match findDoc (fun n => n.isTag "table" && n.attrOf "id" == some "gridDockets") doc with
  | none => []
  | some docket_table =>
      let headers := fragmentDocketHeaders docket_table
      match docket_table.findIn (fun n => n.isTag "tbody") with
      | none => []
      | some tbody =>
          (tbody.findAllIn (fun n => n.isTag "tr")).foldl (fun acc row =>
            match row.findAllIn (fun n => n.isTag "td") with
            | [] => acc
            | c0 :: cs =>
                acc ++ [fragmentDocketEntryOfRow headers (c0 :: cs)
                          (fragmentDocketRowId c0)]) []

/-- The record `get_case_dockets` returns (lines 674-736): failure
exactly when the fragment carries no docket table, with an empty
docket history. -/
structure DocketsResult where
  success : Bool
  docket_history : List Entry
deriving Repr, DecidableEq

/-- The parse of `get_case_dockets` on its fragment response. -/
def get_case_dockets (doc : Doc) : DocketsResult :=
  match findDoc (fun n => n.isTag "table" && n.attrOf "id" == some "gridDockets") doc with
  | none => { success := false, docket_history := [] }
  | some _ => { success := true, docket_history := fragmentDocketEntries doc }

/-! ## `get_case_details_with_dockets` (client.py lines 738-800) -/

/-- The literal part of the `var cid = N` pattern (line 768). -/
def cidPat : List Char := "var cid = ".toList

/-- The literal part of the var-caseDigest assignment pattern
(line 770), up to and including the opening quote. -/
def caseDigestPat : List Char := "var caseDigest = ".toList ++ [quoteChar]

/-- The composition `get_case_details_with_dockets` on the details
response (parsed
body `doc`, raw text `html`, final URL `url`) and on the two
fragment responses the follow-up GETs would return.  The summary
merge and the docket overwrite follow lines 761-798. -/
def get_case_details_with_dockets (doc : Doc) (html : String) (url : String)
    (summaryResp : Doc) (docketsResp : Doc) : Dict :=
  let case_data := aset (parse_case_details doc) "url" (Value.str url)
  match findDigitsCapture cidPat html.toList,
        findQuotedCapture caseDigestPat html.toList with
  | some _case_id, some _digest =>
      let summary_result := get_case_summary summaryResp
      let cd1 :=
        if summary_result.success then aupdate case_data summary_result.summary_data
        else case_data
      let dockets_result := get_case_dockets docketsResp
      if dockets_result.success then
        aset cd1 "docket_history" (Value.list dockets_result.docket_history)
      else
        aset cd1 "docket_history" (Value.list [])
  | _, _ => aset case_data "docket_history" (Value.list [])

/-! ## Concrete documents and inputs used by counterexamples and
witnesses -/

/-- A landing page carrying the hidden anti-forgery input. -/
def landingDoc0 : Doc :=
  [.elem "form" [] [
    .elem "input" [("type", "hidden"), ("name", "__RequestVerificationToken"),
      ("value", "tok1")] []]]

/-- A cookie jar carrying one anti-forgery cookie. -/
def cookies0 : List (String × String) :=
  [("ASP.NET_SessionId", "abc"), ("__RequestVerificationToken_X9", "v1")]

/-- A search-response body carrying the results table. -/
def resultsBody0 : Doc :=
  [.elem "table" [("id", "gridSearchResults")] [.elem "tbody" [] []]]

/-- A case-details page with no parties section, whose generic detail
table has a row labelled `Parties`. -/
def partiesLabelDoc : Doc :=
  [.elem "table" [("class", "table")] [
    .elem "tr" [] [.elem "th" [] [.text "Parties"],
      .elem "td" [] [.text "John Doe"]]]]

/-- A case-details page whose charges section holds one row of two
cells. -/
def baseChargesDoc : Doc :=
  [.elem "div" [("id", "charges")] [
    .elem "table" [] [.elem "tr" [] [
      .elem "td" [] [.text "RECKLESS DRIVING"],
      .elem "td" [] [.text "$500"]]]]]

/-- A summary fragment whose `gridCharges` table holds one charge
row. -/
def summaryChargesDoc : Doc :=
  [.elem "table" [("id", "gridCharges")] [
    .elem "thead" [] [.elem "tr" [] [.elem "th" [] [.text "Charge"],
      .elem "th" [] [.text "Disposition"]]],
    .elem "tbody" [] [.elem "tr" [] [
      .elem "td" [] [.text "SPEEDING"], .elem "td" [] [.text "GUILTY"]]]]]

/-- Search arguments with the three identifier lists unset but an
extension mapping overriding `courtTypes`. -/
def kwargsOverrideArgs : SearchArgs :=
  { search_term := "Doe, John", kwargs := [("courtTypes", "")] }

/-- A case-details page body (raw text) carrying both inline script
variables, the digest value surrounded by single quotes. -/
def detailsHtml0 : String :=
  "var cid = 2574263 + 0; var caseDigest = " ++ String.mk [quoteChar] ++
    "F7EKw8ZEQL4oLpbaaU9fA" ++ String.mk [quoteChar] ++ ";"

/-- A definition list with two dt labels but a single dd value. -/
def dlDoc0 : Node :=
  .elem "dl" [("class", "dl-horizontal")] [
    .elem "dt" [] [.text "Status"],
    .elem "dt" [] [.text "Judge"],
    .elem "dd" [] [.text "OPEN"]]

/-! ## Dictionary and string lemmas -/

theorem aget_aset_self {α : Type} (d : List (String × α)) (k : String) (v : α) :
    aget (aset d k v) k = some v := by
  induction d with
  | nil => simp [aset, aget]
  | cons p rest ih =>
      by_cases hp : (p.1 == k) = true
      · simp [aset, aget, hp]
      · simp [aset, aget, hp, ih]

theorem aget_aset_ne {α : Type} (d : List (String × α)) (k1 k2 : String) (v : α)
    (hne : k1 ≠ k2) : aget (aset d k1 v) k2 = aget d k2 := by
  induction d with
  | nil =>
      have h12 : ((k1 : String) == k2) = false := by simpa using hne
      simp [aset, aget, h12]
  | cons p rest ih =>
      by_cases hp : (p.1 == k1) = true
      · have hp1 : p.1 = k1 := by simpa using hp
        have h12 : ((k1 : String) == k2) = false := by simpa using hne
        simp [aset, aget, hp, hp1, h12]
      · by_cases hq : (p.1 == k2) = true
        · simp [aset, aget, hp, hq]
        · simp [aset, aget, hp, hq, ih]

theorem aget_foldl_aset_not_mem {α β : Type} (key : β → String) (val : β → α) :
    ∀ (l : List β) (d : List (String × α)) (k : String),
      (∀ b ∈ l, key b ≠ k) →
      aget (l.foldl (fun acc b => aset acc (key b) (val b)) d) k = aget d k := by
  intro l
  induction l with
  | nil => intro d k _; rfl
  | cons b rest ih =>
      intro d k h
      simp only [List.foldl_cons]
      rw [ih _ k (fun x hx => h x (List.mem_cons_of_mem _ hx)),
        aget_aset_ne _ _ _ _ (h b (List.mem_cons_self _ _))]

theorem foldl_mem_preserve {α β : Type} (step : List α → β → List α) (P : α → Prop)
    (hstep : ∀ acc b e, (∀ x ∈ acc, P x) → e ∈ step acc b → P e) :
    ∀ (l : List β) (acc : List α), (∀ x ∈ acc, P x) → ∀ e ∈ l.foldl step acc, P e := by
  intro l
  induction l with
  | nil => intro acc hacc e he; exact hacc e he
  | cons b rest ih =>
      intro acc hacc e he
      exact ih (step acc b) (fun x hx => hstep acc b x hacc hx) e he

theorem startsWith_csrf_ne_empty {s : String}
    (h : pyStartsWith s csrfCookiePattern = true) : s.isEmpty = false := by
  cases he : s.isEmpty with
  | false => rfl
  | true =>
      rw [(String.isEmpty_iff s).mp he] at h
      exact absurd h (by decide)

theorem mk_ne_empty_of_ne_nil {cap : List Char} (h : cap ≠ []) :
    (String.mk cap).isEmpty = false := by
  cases hc : (String.mk cap).isEmpty with
  | false => rfl
  | true =>
      have hmk : String.mk cap = "" := (String.isEmpty_iff _).mp hc
      have : cap = [] := by simpa using congrArg String.data hmk
      exact absurd this h

theorem findQuotedCapture_ne_empty (pat : List Char) :
    ∀ cs v, findQuotedCapture pat cs = some v → v.isEmpty = false := by
  intro cs
  induction cs with
  | nil => intro v h; simp [findQuotedCapture] at h
  | cons c rest ih =>
      intro v h
      rw [findQuotedCapture] at h
      dsimp only at h
      split at h
      · split at h
        · rename_i hcond
          have hcap : ((c :: rest).drop pat.length).takeWhile
              (fun ch => ch != quoteChar) ≠ [] := by
            intro hnil
            rw [hnil] at hcond
            simp at hcond
          have hne := mk_ne_empty_of_ne_nil hcap
          have hv : String.mk (((c :: rest).drop pat.length).takeWhile
              (fun ch => ch != quoteChar)) = v := Option.some.inj h
          rw [hv] at hne
          exact hne
        · exact ih v h
      · exact ih v h

theorem looksLike_ne_empty {s : String}
    (h : looksLikeCaseNumber s.toList = true) : s.isEmpty = false := by
  cases he : s.isEmpty with
  | false => rfl
  | true =>
      rw [(String.isEmpty_iff s).mp he] at h
      exact absurd h (by decide)

theorem tierTitle_ne_empty {doc : Doc} {v : String}
    (h : tierTitle doc = some v) : v.isEmpty = false := by
  unfold tierTitle at h
  split at h
  · exact absurd h (by simp)
  · dsimp only at h
    split at h
    · rename_i hcond
      exact (Option.some.inj h) ▸ looksLike_ne_empty hcond
    · exact absurd h (by simp)

theorem tierScript_ne_empty :
    ∀ (l : List Node) (v : String), tierScript l = some v → v.isEmpty = false := by
  intro l
  induction l with
  | nil => intro v h; simp [tierScript] at h
  | cons s rest ih =>
      intro v h
      rw [tierScript] at h
      split at h
      · split at h
        · exact ih v h
        · split at h
          · rename_i hcap
            exact (Option.some.inj h) ▸ findQuotedCapture_ne_empty caseNumberPat _ _ hcap
          · exact ih v h
      · exact ih v h

/-- C1.  Search-response classification is first-match-wins and
mutually exclusive: a body containing a `table` with id
`gridSearchResults` classifies as a results table regardless of the
final URL; otherwise a final URL containing `/CourtCase.aspx/Details/`
classifies as a case-details redirect; otherwise the outcome is the
no-results diagnostic.  The three characterizations are exclusive and
exhaustive for every (body, URL) pair. -/
theorem search_classification_first_match_wins (body : Doc) (url : String) :
    (classify_search_response body url = .search_results ↔
      ∃ n, n ∈ subnodesList body ∧ isResultsTable n = true) ∧
    (classify_search_response body url = .case_details ↔
      (¬ ∃ n, n ∈ subnodesList body ∧ isResultsTable n = true) ∧
        strContainsSub url "/CourtCase.aspx/Details/" = true) ∧
    (classify_search_response body url =
        .unknown "No results found or search failed" ↔
      (¬ ∃ n, n ∈ subnodesList body ∧ isResultsTable n = true) ∧
        strContainsSub url "/CourtCase.aspx/Details/" = false) := by
  have hiff : ((subnodesList body).find? isResultsTable).isSome = true ↔
      ∃ n, n ∈ subnodesList body ∧ isResultsTable n = true :=
    List.find?_isSome
  unfold classify_search_response findDoc
  cases hfind : ((subnodesList body).find? isResultsTable).isSome with
  | true =>
      rw [hfind] at hiff
      cases hurl : strContainsSub url "/CourtCase.aspx/Details/" with
      | true => simp [hfind, hiff.mp rfl]
      | false => simp [hfind, hiff.mp rfl]
  | false =>
      rw [hfind] at hiff
      have hno : ¬ ∃ n, n ∈ subnodesList body ∧ isResultsTable n = true := by
        intro hex
        exact absurd (hiff.mpr hex) (by simp)
      cases hurl : strContainsSub url "/CourtCase.aspx/Details/" with
      | true => simp [hfind, hurl, hno]
      | false => simp [hfind, hurl, hno]

/-- C1 witness: a concrete body holding the results table classifies
as a results table even at a details-route URL. -/
theorem search_classification_witness :
    classify_search_response resultsBody0
      "https://benchmark.atlantaga.gov/BenchmarkWeb/CourtCase.aspx/Details/9" =
      .search_results :=
  (search_classification_first_match_wins resultsBody0
    "https://benchmark.atlantaga.gov/BenchmarkWeb/CourtCase.aspx/Details/9").1.mpr
    ⟨.elem "table" [("id", "gridSearchResults")] [.elem "tbody" [] []],
      by simp [resultsBody0, subnodesList, Node.subnodes], by decide⟩

/-- C4 counterexample: with all three identifier lists unset but the
extension kwargs overriding `courtTypes`, the built body carries an
empty `courtTypes` instead of the documented default, because the
kwargs merge runs last. -/
theorem search_defaults_counterexample :
    kwargsOverrideArgs.court_types = none ∧
    kwargsOverrideArgs.party_types = none ∧
    kwargsOverrideArgs.divisions = none ∧
    aget (build_form_data "tok" kwargsOverrideArgs) "courtTypes" = some "" ∧
    aget (build_form_data "tok" kwargsOverrideArgs) "courtTypes" ≠
      some "22,2,20,21,7,10" := by
  refine ⟨rfl, rfl, rfl, rfl, ?_⟩
  decide

/-- C4 amended: for every search in which `court_types`,
`party_types` and `divisions` are unset and the extension kwargs do
not bind the three identifier keys, the built body contains the
documented non-empty default identifier lists, comma-joined. -/
theorem search_defaults_amended (csrf : String) (a : SearchArgs)
    (hc : a.court_types = none) (hp : a.party_types = none)
    (hd : a.divisions = none)
    (hk : ∀ p ∈ a.kwargs,
      p.1 ≠ "courtTypes" ∧ p.1 ≠ "partyTypes" ∧ p.1 ≠ "divisions") :
    aget (build_form_data csrf a) "courtTypes" = some "22,2,20,21,7,10" ∧
    aget (build_form_data csrf a) "partyTypes" = some "1,2,3,4,5" ∧
    aget (build_form_data csrf a) "divisions" = some "1" := by
  refine ⟨?_, ?_, ?_⟩ <;> unfold build_form_data
  · rw [aget_foldl_aset_not_mem (fun p => p.1) (fun p => p.2) a.kwargs
      (base_form_data csrf a) "courtTypes" (fun b hb => (hk b hb).1)]
    unfold base_form_data
    rw [hc]
    rfl
  · rw [aget_foldl_aset_not_mem (fun p => p.1) (fun p => p.2) a.kwargs
      (base_form_data csrf a) "partyTypes" (fun b hb => (hk b hb).2.1)]
    unfold base_form_data
    rw [hp]
    rfl
  · rw [aget_foldl_aset_not_mem (fun p => p.1) (fun p => p.2) a.kwargs
      (base_form_data csrf a) "divisions" (fun b hb => (hk b hb).2.2)]
    unfold base_form_data
    rw [hd]
    rfl

/-- C4 amended witness: the default-constructed arguments receive
the three documented identifier lists. -/
theorem search_defaults_amended_witness :
    aget (build_form_data "tok" { search_term := "Doe, John" }) "courtTypes" =
      some "22,2,20,21,7,10" ∧
    aget (build_form_data "tok" { search_term := "Doe, John" }) "partyTypes" =
      some "1,2,3,4,5" ∧
    aget (build_form_data "tok" { search_term := "Doe, John" }) "divisions" =
      some "1" :=
  search_defaults_amended "tok" { search_term := "Doe, John" } rfl rfl rfl
    (fun p hp => absurd hp (List.not_mem_nil p))

/-- C6.  Once a token value is cached in the session state, a
subsequent search neither re-issues the landing-page GET (the count
of issued GETs is zero) nor overwrites the cached anti-forgery
values (the state is returned unchanged). -/
theorem token_bootstrap_idempotent (s : ClientState)
    (cookies : List (String × String)) (landing : Doc) (t : String)
    (h : s.csrf_token_body = some t) (hne : t ≠ "") :
    ensure_session s cookies landing = .ok (s, 0) := by
  unfold ensure_session
  rw [h]
  have hfalsy : pyFalsyStr (some t) = false := by
    show t.isEmpty = false
    cases he : t.isEmpty with
    | false => rfl
    | true => exact absurd ((String.isEmpty_iff t).mp he) hne
  rw [hfalsy]
  simp

/-- C6 witness: a cached session passes through `ensure_session`
untouched, issuing no landing-page GET. -/
theorem token_bootstrap_idempotent_witness :
    ensure_session ⟨some "tok1", some "__RequestVerificationToken_X9"⟩ cookies0
      landingDoc0 =
      .ok (⟨some "tok1", some "__RequestVerificationToken_X9"⟩, 0) :=
  token_bootstrap_idempotent _ _ _ "tok1" rfl (by decide)

/-- C9.  The docket fragment parser (`get_case_dockets`) and the
base page's docket parser (the docket portion of
`parse_case_details`) implement the same grammar: on any document
they produce identical ordered entries, identical snake_case header
keys, and identical id recovery from the row's image element. -/
theorem docket_grammar_shared (doc : Doc) :
    fragmentDocketEntries doc = detailsDocketEntries doc ∧
    (∀ t : Node, fragmentDocketHeaders t = detailsDocketHeaders t) ∧
    (∀ c : Node, fragmentDocketRowId c = detailsDocketRowId c) :=
  ⟨rfl, fun _ => rfl, fun _ => rfl⟩

/-- C5.  On a fresh session, token bootstrap fails with
`MissingCsrfCookie` exactly when no cookie name starts with the
anti-forgery pattern; fails with `MissingCsrfToken` exactly when a
matching cookie exists but the `__RequestVerificationToken` input is
absent or its value attribute is missing or empty; and on success it
yields the first matching cookie's name and the input's value, which
`ensure_session` writes into the session state. -/
theorem token_bootstrap_exact (cookies : List (String × String)) (doc : Doc) :
    (get_search_page none cookies doc = .error .MissingCsrfCookie ↔
      ¬ ∃ c, c ∈ cookies ∧ pyStartsWith c.1 csrfCookiePattern = true) ∧
    (get_search_page none cookies doc = .error .MissingCsrfToken ↔
      (∃ c, c ∈ cookies ∧ pyStartsWith c.1 csrfCookiePattern = true) ∧
        (csrfInputOf doc = none ∨
          ∃ inp, csrfInputOf doc = some inp ∧
            (inp.attrOf "value" = none ∨ inp.attrOf "value" = some ""))) ∧
    (∀ nm tok, get_search_page none cookies doc = .ok (nm, tok) →
      (cookies.find? (fun c => pyStartsWith c.1 csrfCookiePattern)).map
          Prod.fst = some nm ∧
      (∃ inp, csrfInputOf doc = some inp ∧ inp.attrOf "value" = some tok) ∧
      ensure_session ⟨none, none⟩ cookies doc = .ok (⟨some tok, some nm⟩, 1)) := by
  cases hF : cookies.find? (fun c => pyStartsWith c.1 csrfCookiePattern) with
  | none =>
      have hno : ¬ ∃ c, c ∈ cookies ∧ pyStartsWith c.1 csrfCookiePattern = true := by
        intro hex
        have hs := List.find?_isSome.mpr hex
        rw [hF] at hs
        simp at hs
      have heq : get_search_page none cookies doc = .error .MissingCsrfCookie := by
        unfold get_search_page
        simp only [hF]
      rw [heq]
      refine ⟨by simp [hno], by simp [hno], ?_⟩
      intro nm tok hok
      simp at hok
  | some c =>
      have hc : pyStartsWith c.1 csrfCookiePattern = true :=
        List.find?_some (p := fun x : String × String =>
          pyStartsWith x.1 csrfCookiePattern) hF
      have hmem : c ∈ cookies := List.mem_of_find?_eq_some hF
      have hex : ∃ x, x ∈ cookies ∧ pyStartsWith x.1 csrfCookiePattern = true :=
        ⟨c, hmem, hc⟩
      have hemp : c.1.isEmpty = false := startsWith_csrf_ne_empty hc
      cases hI : csrfInputOf doc with
      | none =>
          have heq : get_search_page none cookies doc = .error .MissingCsrfToken := by
            unfold get_search_page
            simp [hF, hemp, hI]
          rw [heq]
          refine ⟨?_, ?_, ?_⟩
          · exact iff_of_false (by simp) (fun hn => hn hex)
          · exact iff_of_true rfl ⟨hex, Or.inl rfl⟩
          · intro nm tok hok
            simp at hok
      | some inp =>
          cases hV : inp.attrOf "value" with
          | none =>
              have heq : get_search_page none cookies doc =
                  .error .MissingCsrfToken := by
                unfold get_search_page
                simp [hF, hemp, hI, hV]
              rw [heq]
              refine ⟨?_, ?_, ?_⟩
              · exact iff_of_false (by simp) (fun hn => hn hex)
              · exact iff_of_true rfl ⟨hex, Or.inr ⟨inp, rfl, Or.inl hV⟩⟩
              · intro nm tok hok
                simp at hok
          | some v =>
              cases hE : v.isEmpty with
              | true =>
                  have hv0 : v = "" := (String.isEmpty_iff v).mp hE
                  have heq : get_search_page none cookies doc =
                      .error .MissingCsrfToken := by
                    unfold get_search_page
                    simp [hF, hemp, hI, hV, hE]
                  rw [heq]
                  refine ⟨?_, ?_, ?_⟩
                  · exact iff_of_false (by simp) (fun hn => hn hex)
                  · exact iff_of_true rfl
                      ⟨hex, Or.inr ⟨inp, rfl, Or.inr (hv0 ▸ hV)⟩⟩
                  · intro nm tok hok
                    simp at hok
              | false =>
                  have heq : get_search_page none cookies doc = .ok (c.1, v) := by
                    unfold get_search_page
                    simp [hF, hemp, hI, hV, hE]
                  have hvne : v ≠ "" := by
                    intro hv
                    rw [hv] at hE
                    exact absurd hE (by decide)
                  rw [heq]
                  refine ⟨?_, ?_, ?_⟩
                  · exact iff_of_false (by simp) (fun hn => hn hex)
                  · refine iff_of_false (by simp) ?_
                    intro hrhs
                    rcases hrhs.2 with h0 | ⟨inp2, hinp2, hval2⟩
                    · exact absurd h0 (by simp)
                    · have hinp : inp2 = inp := (Option.some.inj hinp2).symm
                      subst hinp
                      rcases hval2 with h1 | h1
                      · rw [hV] at h1
                        exact absurd h1 (by simp)
                      · rw [hV] at h1
                        exact absurd (Option.some.inj h1) hvne
                  · intro nm tok hok
                    injection hok with hpair
                    obtain ⟨hnm, htok⟩ : c.1 = nm ∧ v = tok := by simpa using hpair
                    subst hnm
                    subst htok
                    refine ⟨?_, ⟨inp, rfl, hV⟩, ?_⟩
                    · rfl
                    · unfold ensure_session
                      dsimp only
                      rw [heq]
                      rfl

/-- C5 witness: on the concrete landing response the bootstrap
stores cookie name `__RequestVerificationToken_X9` and token
`tok1`. -/
theorem token_bootstrap_exact_witness :
    (cookies0.find? (fun c => pyStartsWith c.1 csrfCookiePattern)).map Prod.fst =
        some "__RequestVerificationToken_X9" ∧
    (∃ inp, csrfInputOf landingDoc0 = some inp ∧
        inp.attrOf "value" = some "tok1") ∧
    ensure_session ⟨none, none⟩ cookies0 landingDoc0 =
      .ok (⟨some "tok1", some "__RequestVerificationToken_X9"⟩, 1) :=
  (token_bootstrap_exact cookies0 landingDoc0).2.2
    "__RequestVerificationToken_X9" "tok1" rfl

/-- The imperative recovery equals the control skeleton applied to
the tier results. -/
theorem caseNumberOf_eq_imperChain (doc : Doc) :
    caseNumberOf doc =
      imperChain (tierTitle doc)
        (findDoc (fun n => n.isTag "h2" && n.hasClass "case-heading") doc)
        (tierScript (findAllDoc (fun n => n.isTag "script") doc)) := by
  unfold caseNumberOf imperChain tierTitle
  cases hT : findDoc (fun n => n.isTag "title") doc with
  | none => rfl
  | some t => dsimp only

/-- C7.  Case-number recovery is a three-tier fallback in which the
first succeeding tier wins with no merging: the imperative recovery
of `parse_case_details` (title part before the first dash accepted by
the letters-then-digits shape check, else the case-heading text, else
the inline script assignment) carries exactly the orElse-chain of the
three isolated tiers; in particular when all three fail, no case
number is carried. -/
theorem case_number_three_tier (doc : Doc) :
    caseNumberCarried doc =
      (tierTitle doc).orElse (fun _ =>
        (tierHeading doc).orElse (fun _ =>
          tierScript (findAllDoc (fun n => n.isTag "script") doc))) := by
  unfold caseNumberCarried
  rw [caseNumberOf_eq_imperChain]
  unfold imperChain tierHeading
  have hS := tierScript_ne_empty (findAllDoc (fun n => n.isTag "script") doc)
  cases hT : tierTitle doc with
  | some a =>
      have haE : a.isEmpty = false := tierTitle_ne_empty hT
      simp [pyFalsyStr, haE, Option.orElse]
  | none =>
      cases hH : findDoc (fun n => n.isTag "h2" && n.hasClass "case-heading") doc with
      | some h2 =>
          cases hHE : h2.getTextStrip.isEmpty with
          | false => simp [pyFalsyStr, hHE, Option.orElse]
          | true =>
              cases hSc : tierScript (findAllDoc (fun n => n.isTag "script") doc) with
              | some v => simp [pyFalsyStr, hHE, hS v hSc, Option.orElse]
              | none => simp [pyFalsyStr, hHE, Option.orElse]
      | none =>
          cases hSc : tierScript (findAllDoc (fun n => n.isTag "script") doc) with
          | some v => simp [pyFalsyStr, hS v hSc, Option.orElse]
          | none => simp [pyFalsyStr, Option.orElse]

theorem aget_parseCaseNumberDict_ne (doc : Doc) (k : String)
    (hk : k ≠ "case_number") : aget (parseCaseNumberDict doc) k = none := by
  unfold parseCaseNumberDict
  cases caseNumberCarried doc with
  | none => rfl
  | some v =>
      have h := aget_aset_ne ([] : Dict) "case_number" k (Value.str v)
        (fun h => hk h.symm)
      exact h.trans rfl

theorem aget_parseDetailDict_ne (doc : Doc) (k : String)
    (hk1 : k ≠ "case_number")
    (hk2 : k ∉ (detailPairs doc).map Prod.fst) :
    aget (parseDetailDict doc) k = none := by
  unfold parseDetailDict
  rw [aget_foldl_aset_not_mem (fun p => p.1) (fun p => Value.str p.2)
    (detailPairs doc) (parseCaseNumberDict doc) k
    (fun b hb hbk => hk2 (hbk ▸ List.mem_map_of_mem Prod.fst hb))]
  exact aget_parseCaseNumberDict_ne doc k hk1

theorem aget_parsePartiesDict_ne (doc : Doc) (k : String) (hk : k ≠ "parties") :
    aget (parsePartiesDict doc) k = aget (parseDetailDict doc) k := by
  unfold parsePartiesDict
  cases basePartiesOf doc with
  | none => rfl
  | some ps => exact aget_aset_ne _ _ _ _ (fun h => hk h.symm)

theorem aget_parseChargesDict_ne (doc : Doc) (k : String) (hk : k ≠ "charges") :
    aget (parseChargesDict doc) k = aget (parsePartiesDict doc) k := by
  unfold parseChargesDict
  cases baseChargesOf doc with
  | none => rfl
  | some cs => exact aget_aset_ne _ _ _ _ (fun h => hk h.symm)

theorem aget_parse_ne_docket (doc : Doc) (k : String)
    (hk : k ≠ "docket_history") :
    aget (parse_case_details doc) k = aget (parseChargesDict doc) k := by
  unfold parse_case_details
  dsimp only
  cases (detailsDocketEntries doc).isEmpty with
  | true => rfl
  | false => exact aget_aset_ne _ _ _ _ (fun h => hk h.symm)

theorem detailsDocketEntries_eq_nil_of_absent (doc : Doc)
    (h : ∀ n ∈ subnodesList doc,
      (n.isTag "table" && n.attrOf "id" == some "gridDockets") = false) :
    detailsDocketEntries doc = [] := by
  unfold detailsDocketEntries findDoc
  rw [List.find?_eq_none.mpr (fun x hx => by simp [h x hx])]

theorem partiesSectionOf_eq_none (doc : Doc)
    (h1 : ∀ n ∈ subnodesList doc,
      (n.isTag "div" && n.attrOf "id" == some "parties") = false)
    (h2 : ∀ n ∈ subnodesList doc,
      (n.isTag "section" && n.hasClass "parties") = false) :
    partiesSectionOf doc = none := by
  unfold partiesSectionOf findDoc
  rw [List.find?_eq_none.mpr (fun x hx => by simp [h1 x hx]),
    List.find?_eq_none.mpr (fun x hx => by simp [h2 x hx])]
  rfl

theorem chargesSectionOf_eq_none (doc : Doc)
    (h1 : ∀ n ∈ subnodesList doc,
      (n.isTag "div" && n.attrOf "id" == some "charges") = false)
    (h2 : ∀ n ∈ subnodesList doc,
      (n.isTag "section" && n.hasClass "charges") = false) :
    chargesSectionOf doc = none := by
  unfold chargesSectionOf findDoc
  rw [List.find?_eq_none.mpr (fun x hx => by simp [h1 x hx]),
    List.find?_eq_none.mpr (fun x hx => by simp [h2 x hx])]
  rfl

/-- C3 counterexample: this page has no parties section (neither a
`div` with id `parties` nor a `section` of class `parties`), yet the
parsed record carries a `parties` key, produced by a generic
detail-table row whose label snake-cases to `parties`.  The claim
that absence of the section yields an omitted key therefore fails as
stated. -/
theorem optional_absence_counterexample :
    findDoc (fun n => n.isTag "div" && n.attrOf "id" == some "parties")
      partiesLabelDoc = none ∧
    findDoc (fun n => n.isTag "section" && n.hasClass "parties")
      partiesLabelDoc = none ∧
    aget (parse_case_details partiesLabelDoc) "parties" =
      some (Value.str "John Doe") :=
  ⟨rfl, rfl, by decide⟩

/-- C3 amended: absence of optional markup is never an error, and
when the docket table is absent and no generic detail-table row
snake-cases to `docket_history`, the record carries no
`docket_history` key (an empty docket history); likewise the
`parties` and `charges` keys are omitted when the corresponding
section is absent and no detail-table label collides with them. -/
theorem optional_absence_amended (doc : Doc) :
    ((∀ n ∈ subnodesList doc,
        (n.isTag "table" && n.attrOf "id" == some "gridDockets") = false) →
      "docket_history" ∉ (detailPairs doc).map Prod.fst →
      aget (parse_case_details doc) "docket_history" = none) ∧
    ((∀ n ∈ subnodesList doc,
        (n.isTag "div" && n.attrOf "id" == some "parties") = false) →
      (∀ n ∈ subnodesList doc,
        (n.isTag "section" && n.hasClass "parties") = false) →
      "parties" ∉ (detailPairs doc).map Prod.fst →
      aget (parse_case_details doc) "parties" = none) ∧
    ((∀ n ∈ subnodesList doc,
        (n.isTag "div" && n.attrOf "id" == some "charges") = false) →
      (∀ n ∈ subnodesList doc,
        (n.isTag "section" && n.hasClass "charges") = false) →
      "charges" ∉ (detailPairs doc).map Prod.fst →
      aget (parse_case_details doc) "charges" = none) := by
  refine ⟨?_, ?_, ?_⟩
  · intro habs hdet
    have hnil := detailsDocketEntries_eq_nil_of_absent doc habs
    unfold parse_case_details
    simp only [hnil, List.isEmpty_nil, if_true]
    rw [aget_parseChargesDict_ne doc _ (by decide),
      aget_parsePartiesDict_ne doc _ (by decide)]
    exact aget_parseDetailDict_ne doc _ (by decide) hdet
  · intro hdiv hsec hdet
    rw [aget_parse_ne_docket doc _ (by decide),
      aget_parseChargesDict_ne doc _ (by decide)]
    unfold parsePartiesDict basePartiesOf
    rw [partiesSectionOf_eq_none doc hdiv hsec]
    dsimp only
    exact aget_parseDetailDict_ne doc _ (by decide) hdet
  · intro hdiv hsec hdet
    rw [aget_parse_ne_docket doc _ (by decide)]
    unfold parseChargesDict baseChargesOf
    rw [chargesSectionOf_eq_none doc hdiv hsec]
    dsimp only
    rw [aget_parsePartiesDict_ne doc _ (by decide)]
    exact aget_parseDetailDict_ne doc _ (by decide) hdet

/-- C3 amended witness: the empty document parses without error to a
record omitting all three optional fields. -/
theorem optional_absence_amended_witness :
    aget (parse_case_details []) "docket_history" = none ∧
    aget (parse_case_details []) "parties" = none ∧
    aget (parse_case_details []) "charges" = none := by
  obtain ⟨h1, h2, h3⟩ := optional_absence_amended []
  refine ⟨h1 ?_ ?_, h2 ?_ ?_ ?_, h3 ?_ ?_ ?_⟩ <;> first
    | exact fun n hn => absurd hn (by simp [subnodesList])
    | decide

/-- C2.  The base page's docket history never survives
`get_case_details_with_dockets`: when both the case id and the
digest are extractable, the final `docket_history` is the docket
fragment's parse (or the empty sequence when that fetch reports
failure); when either is missing, fragment fetching is skipped, the
`docket_history` is explicitly empty, and every other key keeps the
base extractor's value — in no case is this an error. -/
theorem docket_overwrite_policy (doc : Doc) (html url : String)
    (sresp dresp : Doc) :
    (∀ cid digest, findDigitsCapture cidPat html.toList = some cid →
      findQuotedCapture caseDigestPat html.toList = some digest →
      aget (get_case_details_with_dockets doc html url sresp dresp)
          "docket_history" =
        some (Value.list (if (get_case_dockets dresp).success then
          (get_case_dockets dresp).docket_history else []))) ∧
    (findDigitsCapture cidPat html.toList = none ∨
        findQuotedCapture caseDigestPat html.toList = none →
      aget (get_case_details_with_dockets doc html url sresp dresp)
          "docket_history" = some (Value.list []) ∧
      ∀ k, k ≠ "url" → k ≠ "docket_history" →
        aget (get_case_details_with_dockets doc html url sresp dresp) k =
          aget (parse_case_details doc) k) := by
  constructor
  · intro cid digest hcid hdig
    unfold get_case_details_with_dockets
    rw [hcid, hdig]
    dsimp only [get_case_summary]
    cases hds : (get_case_dockets dresp).success with
    | true => simp [aget_aset_self]
    | false => simp [aget_aset_self]
  · intro hmiss
    have hbranch : get_case_details_with_dockets doc html url sresp dresp =
        aset (aset (parse_case_details doc) "url" (Value.str url))
          "docket_history" (Value.list []) := by
      unfold get_case_details_with_dockets
      rcases hmiss with hcid0 | hdig0
      · rw [hcid0]
      · rw [hdig0]
        cases findDigitsCapture cidPat html.toList <;> rfl
    rw [hbranch]
    refine ⟨aget_aset_self _ _ _, ?_⟩
    intro k hku hkd
    rw [aget_aset_ne _ _ _ _ (fun h => hkd h.symm),
      aget_aset_ne _ _ _ _ (fun h => hku h.symm)]

/-- C2 witness: on a page carrying both script variables, with a
fragment response lacking the docket table (a failed fetch), the
record's docket history is empty, not an error. -/
theorem docket_overwrite_policy_witness :
    aget (get_case_details_with_dockets [] detailsHtml0 "u" [] [])
        "docket_history" =
      some (Value.list (if (get_case_dockets []).success then
        (get_case_dockets []).docket_history else [])) :=
  (docket_overwrite_policy [] detailsHtml0 "u" [] []).1
    "2574263" "F7EKw8ZEQL4oLpbaaU9fA" (by decide) (by decide)

theorem summaryChargeRow_isMap (headers : List String) (cells : List Node)
    (e : Entry) (h : summaryChargeRow headers cells = some e) :
    Entry.isMap e = true := by
  unfold summaryChargeRow at h
  dsimp only at h
  split at h <;> split at h
  · exact absurd h (by simp)
  · have he := Option.some.inj h
    subst he
    rfl
  · exact absurd h (by simp)
  · have he := Option.some.inj h
    subst he
    rfl

theorem summaryChargesFold_shape (headers : List String) (tbody : Node) :
    ∀ e ∈ (tbody.findAllIn (fun n => n.isTag "tr")).foldl (fun acc row =>
        match row.findAllIn (fun n => n.isTag "td") with
        | [] => acc
        | c0 :: cs =>
            match summaryChargeRow headers (c0 :: cs) with
            | some e => acc ++ [e]
            | none => acc) [],
      Entry.isMap e = true := by
  refine foldl_mem_preserve _ (fun e => Entry.isMap e = true) ?_ _ [] ?_
  case refine_2 =>
    intro x hx
    exact absurd hx (List.not_mem_nil x)
  intro acc row e hacc hmem
  rcases hcl : row.findAllIn (fun n => n.isTag "td") with _ | ⟨c0, cs⟩
  · rw [hcl] at hmem
    exact hacc e hmem
  · rw [hcl] at hmem
    dsimp only at hmem
    rcases hrow : summaryChargeRow headers (c0 :: cs) with _ | e2
    · rw [hrow] at hmem
      exact hacc e hmem
    · rw [hrow] at hmem
      rcases List.mem_append.mp hmem with hin | hin
      · exact hacc e hin
      · have he2 : e = e2 := by simpa using hin
        exact he2 ▸ summaryChargeRow_isMap headers (c0 :: cs) e2 hrow

theorem baseChargesRows_shape (sec : Node) :
    ∀ e ∈ baseChargesRows sec, ∃ s, e = Entry.str s := by
  unfold baseChargesRows
  refine foldl_mem_preserve _ (fun e => ∃ s, e = Entry.str s) ?_ _ [] ?_
  case refine_2 =>
    intro x hx
    exact absurd hx (List.not_mem_nil x)
  intro acc row e hacc hmem
  dsimp only at hmem
  by_cases h1 : (row.findAllIn (fun n => n.isTag "td")).isEmpty = true
  · rw [if_pos h1] at hmem
    exact hacc e hmem
  · rw [if_neg h1] at hmem
    by_cases h2 : (pyJoin " " ((row.findAllIn (fun n => n.isTag "td")).map
        Node.getTextStrip)).isEmpty = true
    · rw [if_pos h2] at hmem
      exact hacc e hmem
    · rw [if_neg h2] at hmem
      rcases List.mem_append.mp hmem with hin | hin
      · exact hacc e hin
      · have hval : e = Entry.str (pyJoin " " ((row.findAllIn
            (fun n => n.isTag "td")).map Node.getTextStrip)) := by
          simpa using hin
        exact ⟨_, hval⟩

/-- C8 counterexample: a record built from the base case-details
page carries charges that are plain strings (space-joined cell
texts), not mappings, so the claim fails for base-page records. -/
theorem charges_shape_counterexample :
    aget (parse_case_details baseChargesDoc) "charges" =
      some (Value.list [Entry.str "RECKLESS DRIVING $500"]) ∧
    Entry.isMap (Entry.str "RECKLESS DRIVING $500") = false := by
  exact ⟨by decide, rfl⟩

/-- C8 amended: charge entries parsed from the summary fragment's
charges table are string-to-string mappings, but charge entries
parsed from the base case-details page's charges section are plain
strings (the space-joined cell texts), not mappings. -/
theorem charges_entry_shapes (doc : Doc) :
    (∀ xs, baseChargesOf doc = some xs → ∀ e ∈ xs, ∃ s, e = Entry.str s) ∧
    (∀ xs, summaryChargesOf doc = some xs → ∀ e ∈ xs, Entry.isMap e = true) := by
  constructor
  · intro xs hxs e he
    unfold baseChargesOf at hxs
    split at hxs
    · exact absurd hxs (by simp)
    · dsimp only at hxs
      split at hxs
      · exact absurd hxs (by simp)
      · have hx := Option.some.inj hxs
        subst hx
        exact baseChargesRows_shape _ e he
  · intro xs hxs e he
    unfold summaryChargesOf at hxs
    split at hxs
    · exact absurd hxs (by simp)
    · rename_i charges_table heq2
      dsimp only at hxs
      split at hxs
      · exact absurd hxs (by simp)
      · have hx := Option.some.inj hxs
        subst hx
        cases htb : charges_table.findIn (fun n => n.isTag "tbody") with
        | none =>
            rw [htb] at he
            exact absurd he (by simp)
        | some tbody =>
            rw [htb] at he
            exact summaryChargesFold_shape _ tbody e he

/-- C8 amended witness: a base-page charge entry is a string; a
summary-fragment charge entry is a mapping. -/
theorem charges_entry_shapes_witness :
    (∃ s, Entry.str "RECKLESS DRIVING $500" = Entry.str s) ∧
    Entry.isMap (Entry.map [("charge", "SPEEDING"),
      ("disposition", "GUILTY")]) = true := by
  constructor
  · exact (charges_entry_shapes baseChargesDoc).1
      [Entry.str "RECKLESS DRIVING $500"] (by decide)
      (Entry.str "RECKLESS DRIVING $500") (by decide)
  · exact (charges_entry_shapes summaryChargesDoc).2
      [Entry.map [("charge", "SPEEDING"), ("disposition", "GUILTY")]] (by decide)
      (Entry.map [("charge", "SPEEDING"), ("disposition", "GUILTY")]) (by decide)

/-- C10.  Summary definition-list parsing pairs elements
positionally across the whole `dl`: the number of consumed (dt, dd)
pairs is the minimum of the dt and dd counts (unmatched trailing
elements are silently dropped), and the i-th pair is exactly the
i-th dt with the i-th dd, not a pairing by document adjacency. -/
theorem summary_dl_positional (dl : Node) :
    (summaryDlPairs dl).length =
      min (dl.findAllIn (fun n => n.isTag "dt")).length
        (dl.findAllIn (fun n => n.isTag "dd")).length ∧
    ∀ (i : Nat) (p : Node × Node),
      (summaryDlPairs dl)[i]? = some p ↔
        ((dl.findAllIn (fun n => n.isTag "dt"))[i]? = some p.1 ∧
          (dl.findAllIn (fun n => n.isTag "dd"))[i]? = some p.2) := by
  constructor
  · exact List.length_zip _ _
  · intro i p
    exact List.getElem?_zip_eq_some

/-- C10 witness: with two dt labels and one dd value, exactly one
pair is consumed, pairing the first dt with the first dd; the
trailing dt is dropped. -/
theorem summary_dl_positional_witness :
    (summaryDlPairs dlDoc0).length = 1 ∧
    (summaryDlPairs dlDoc0)[0]? =
      some (Node.elem "dt" [] [Node.text "Status"],
        Node.elem "dd" [] [Node.text "OPEN"]) := by
  constructor
  · exact (summary_dl_positional dlDoc0).1.trans (by rfl)
  · exact ((summary_dl_positional dlDoc0).2 0 _).mpr ⟨rfl, rfl⟩

end AtlantaCourt
